import Mathlib

/-!
Shallow embedding of the orchestrator chat client (`streamlit_app.py`):
the session-state model (messages, thread_id, task_plans,
execution_history), the orchestrator HTTP client `call_orchestrator`,
the submit handler, the New Thread / Clear History handlers, and the
fragments of the message display that the specification talks about
(status badge, execution-order tab, confidence metric).

Python dict values flowing through the app are modelled by the `Json`
inductive together with Python truthiness; `dict.get` is modelled by
`dictGet` / `dictGetD`.  `json.loads` is an external library function:
the handler is parametrised by an abstract decoder
`loads : String → Option Json` (`none` models the decoder raising, which
the handler's `try/except` swallows).  HTTP response bodies are JSON
objects, per the orchestrator response contract, given as association
lists of fields.  Timestamps are opaque strings supplied by the caller;
the epoch second `int(time.time())` used for thread ids is a `Nat`
supplied by the caller.
-/

namespace OrchUI

/-- A JSON value (the decoded form of orchestrator payloads and of the
Python dicts stored in session state; `null` doubles as Python `None`). -/
inductive Json where
  | null : Json
  | bool (b : Bool) : Json
  | num (q : ℚ) : Json
  | str (s : String) : Json
  | arr (elems : List Json) : Json
  | obj (fields : List (String × Json)) : Json

/-- Python truthiness of a JSON value: `None`, `False`, `0`, `""`, `[]`
and `{}` are falsy, everything else truthy. -/
def Json.truthy : Json → Bool
  | .null => false
  | .bool b => b
  | .num q => decide (q ≠ 0)
  | .str s => decide (s ≠ "")
  | .arr elems => !elems.isEmpty
  | .obj fields => !fields.isEmpty

/-- `d.get(k)` on a Python dict: the value bound to `k`, or `None`
(modelled as `Json.null`) when the key is absent. -/
def dictGet (fields : List (String × Json)) (k : String) : Json :=
  (List.lookup k fields).getD Json.null

/-- `d.get(k, default)` on a Python dict: the default is used only when
the key is absent (a key bound to a falsy value is still returned). -/
def dictGetD (fields : List (String × Json)) (k : String) (d : Json) : Json :=
  (List.lookup k fields).getD d

/-- The observable outcome of the HTTP POST to `{base}/orchestrate`:
either a response arrived (with its status code and decoded JSON-object
body), or the request raised (`requests.exceptions.ConnectionError`, or
any other exception such as a timeout). -/
inductive HttpOutcome where
  | response (statusCode : Nat) (body : List (String × Json)) : HttpOutcome
  | connectionError : HttpOutcome
  | otherException : HttpOutcome

/-- `call_orchestrator` (lines 78–98): returns the decoded body when the
HTTP status code is exactly 200, and `None` otherwise — on any non-200
status (after `st.error("API Error: ...")`), on `ConnectionError`, and
on any other exception. -/
def call_orchestrator : HttpOutcome → Option (List (String × Json))
  | .response statusCode body => if statusCode = 200 then some body else none
  | .connectionError => none
  | .otherException => none

/-- One entry of `st.session_state.messages`: a user dict
`{"type": "user", "content", "timestamp"}` or an assistant dict with
fields content, status, task_plan, execution_order, results, error. -/
inductive Msg where
  | user (content timestamp : String) : Msg
  | assistant (content status task_plan execution_order results error : Json)
      (timestamp : String) : Msg

/-- The `status` field of an assistant message (the submit handler never
stores a status on user messages; `null` there). -/
def Msg.statusOf : Msg → Json
  | .user _ _ => Json.null
  | .assistant _ s _ _ _ _ _ => s

/-- The `content` field of an assistant message. -/
def Msg.contentOf : Msg → Json
  | .user c _ => Json.str c
  | .assistant c _ _ _ _ _ _ => c

/-- The `task_plan` field of an assistant message. -/
def Msg.taskPlanOf : Msg → Json
  | .user _ _ => Json.null
  | .assistant _ _ tp _ _ _ _ => tp

/-- The `execution_order` field of an assistant message. -/
def Msg.executionOrderOf : Msg → Json
  | .user _ _ => Json.null
  | .assistant _ _ _ eo _ _ _ => eo

/-- One entry of `st.session_state.execution_history`. -/
structure HistEntry where
  query : String
  thread_id : String
  timestamp : String
  status : Json
  agents : Json

/-- The session state the claims are about: `st.session_state.messages`,
`.thread_id`, `.task_plans`, `.execution_history`. -/
structure AppState where
  messages : List Msg
  thread_id : String
  task_plans : List Json
  execution_history : List HistEntry

/-- The thread-id token `f"thread_{int(time.time())}"` built from the
epoch second `t` (lines 66 and 189). -/
def threadToken (t : Nat) : String :=
  "thread_" ++ Nat.repr t

/-- Initial session state (lines 62–72): empty collections and a
time-based thread id. -/
def initState (t : Nat) : AppState :=
  { messages := [], thread_id := threadToken t, task_plans := [],
    execution_history := [] }

/-- The New Thread button handler (lines 188–193): fresh time-based
thread id, and all three collections emptied. -/
def newThread (t : Nat) (_s : AppState) : AppState :=
  { thread_id := threadToken t, messages := [], task_plans := [],
    execution_history := [] }

/-- The Clear History button handler (lines 222–224): only
`st.session_state.messages` is reset; nothing else is touched. -/
def clearHistory (s : AppState) : AppState :=
  { s with messages := [] }

/-- The task-plan parse block of the submit handler (lines 333–340).
`some v` means the local `task_plan` variable ended up bound to `v` and
`v` was appended to `st.session_state.task_plans`; `none` means the
field was absent/falsy, or was a string on which `json.loads` raised
(caught by the bare `except`, leaving `task_plan = None` and the
history unchanged — the `append` sits after `json.loads` inside the
`try`). -/
def decodedPlan (loads : String → Option Json) (body : List (String × Json)) :
    Option Json :=
  if (dictGet body "task_plan").truthy then
    match dictGet body "task_plan" with
    | .str s => loads s
    | v => some v
  else none

/-- The assistant message appended by the submit handler (lines
343–353): content is `result.get("error") or "Task completed
successfully"`, status defaults to `"pending"` only when the key is
absent, and the task_plan field is the decoded plan or `None`. -/
def assistantMsg (loads : String → Option Json) (body : List (String × Json))
    (timestamp : String) : Msg :=
  Msg.assistant
    (if (dictGet body "error").truthy then dictGet body "error"
     else Json.str "Task completed successfully")
    (dictGetD body "status" (Json.str "pending"))
    ((decodedPlan loads body).getD Json.null)
    (dictGet body "execution_order")
    (dictGet body "results")
    (dictGet body "error")
    timestamp

/-- The execution-history entry appended by the submit handler (lines
356–362): `status` has no default, `agents` defaults to `[]` only when
the `execution_order` key is absent. -/
def histEntryOf (query thread_id timestamp : String)
    (body : List (String × Json)) : HistEntry :=
  { query := query, thread_id := thread_id, timestamp := timestamp,
    status := dictGet body "status",
    agents := dictGetD body "execution_order" (Json.arr []) }

/-- The submit handler (lines 318–364).  Guarded by
`if submit_button and user_input:`; appends the user message, calls the
orchestrator, and — only when the returned `result` is truthy (`if
result:`) — parses the task plan and appends the assistant message and
the execution-history entry.  A `None` result (connection error,
exception, or non-200 status) and a falsy decoded body both leave only
the dangling user message. -/
def processInput (loads : String → Option Json) (submit_button : Bool)
    (user_input timestamp : String) (outcome : HttpOutcome)
    (s : AppState) : AppState :=
  if submit_button ∧ user_input ≠ "" then
    let s1 := { s with messages := s.messages ++ [Msg.user user_input timestamp] }
    match call_orchestrator outcome with
    | some body =>
      if (Json.obj body).truthy then
        { s1 with
          messages := s1.messages ++ [assistantMsg loads body timestamp],
          task_plans := s1.task_plans ++ (decodedPlan loads body).toList,
          execution_history := s1.execution_history ++
            [histEntryOf user_input s.thread_id timestamp body] }
      else s1
    | none => s1
  else s

/-- Whether a submission's orchestrator call produced a truthy `result`
(HTTP 200 with a truthy decoded body) — the exact condition under which
the submit handler appends an assistant message. -/
def truthyResult (outcome : HttpOutcome) : Bool :=
  match call_orchestrator outcome with
  | some body => Json.truthy (Json.obj body)
  | none => false

/-- One submission: the submitted text, the timestamp, and the HTTP
outcome of its orchestrator call. -/
structure Submission where
  input : String
  timestamp : String
  outcome : HttpOutcome

/-- A sequence of submissions run through the submit handler. -/
def runSubmissions (loads : String → Option Json) (subs : List Submission)
    (s : AppState) : AppState :=
  subs.foldl
    (fun st sub => processInput loads true sub.input sub.timestamp sub.outcome st) s

/-- The status badge of the assistant-message display (lines 251–257):
`"complete"` shows Completed, `"error"` shows Error, anything else
(including the `"pending"` default) shows Processing. -/
def renderStatus (status : Json) : String :=
  match status with
  | .str s =>
    if s = "complete" then "Status: Completed"
    else if s = "error" then "Status: Error"
    else "Status: Processing"
  | _ => "Status: Processing"

/-- The Order tab (lines 271–275): when `msg.get("execution_order")` is
truthy, the agents are written in sequence as numbered lines
`f"{idx}. {agent}"` with `enumerate(..., 1)`; this returns the
(index, agent) pairs in the order written. -/
def renderedOrder (execution_order : Json) : List (Nat × Json) :=
  if execution_order.truthy then
    match execution_order with
    | .arr elems => List.enumFrom 1 elems
    | _ => []
  else []

/-- Python `int()` applied to a rational: truncation toward zero. -/
def pyInt (q : ℚ) : Int :=
  if q < 0 then ⌈q⌉ else ⌊q⌋

/-- The confidence percentage of `display_task_plan` (lines 113–114):
`int(confidence * 100)` where `confidence = plan.get("confidence", 0)`. -/
def confidencePct (confidence : ℚ) : Int :=
  pyInt (confidence * 100)

/-- The rendered confidence metric string `f"{int(confidence * 100)}%"`. -/
def confidenceMetric (confidence : ℚ) : String :=
  toString (confidencePct confidence) ++ "%"

/-! ## Helper lemmas

Injectivity of the decimal rendering backing `threadToken`, and the
normal form of a submission whose orchestrator call succeeded with a
truthy (non-empty) body. -/

lemma toDigitsCore_append (b : Nat) :
    ∀ (fuel n : Nat) (l : List Char),
      Nat.toDigitsCore b fuel n l = Nat.toDigitsCore b fuel n [] ++ l := by
  intro fuel
  induction fuel with
  | zero => intro n l; simp [Nat.toDigitsCore]
  | succ f ih =>
    intro n l
    simp only [Nat.toDigitsCore]
    by_cases h : n / b = 0
    · simp [h]
    · simp only [h, if_false]
      rw [ih (n / b) (Nat.digitChar (n % b) :: l), ih (n / b) [Nat.digitChar (n % b)]]
      simp

lemma toDigitsCore_fuel (b : Nat) (hb : 2 ≤ b) :
    ∀ (n : Nat), ∀ (fuel fuel' : Nat), n < fuel → n < fuel' → ∀ l,
      Nat.toDigitsCore b fuel n l = Nat.toDigitsCore b fuel' n l := by
  intro n
  induction n using Nat.strong_induction_on with
  | _ n ih =>
    intro fuel fuel' hf hf' l
    obtain ⟨f, rfl⟩ : ∃ f, fuel = f + 1 := ⟨fuel - 1, by omega⟩
    obtain ⟨f', rfl⟩ : ∃ f', fuel' = f' + 1 := ⟨fuel' - 1, by omega⟩
    simp only [Nat.toDigitsCore]
    by_cases h : n / b = 0
    · simp [h]
    · simp only [h, if_false]
      have hn : 0 < n := by
        rcases Nat.eq_zero_or_pos n with h0 | h0
        · subst h0; simp [Nat.zero_div] at h
        · exact h0
      have hlt : n / b < n := Nat.div_lt_self hn (by omega)
      exact ih (n / b) hlt f f' (by omega) (by omega) _

lemma toDigitsCore_decomp (n fuel : Nat) (hf : n < fuel) :
    Nat.toDigitsCore 10 fuel n [] =
      (if n < 10 then [] else Nat.toDigits 10 (n / 10)) ++ [Nat.digitChar (n % 10)] := by
  obtain ⟨f, rfl⟩ : ∃ f, fuel = f + 1 := ⟨fuel - 1, by omega⟩
  simp only [Nat.toDigitsCore]
  by_cases h : n / 10 = 0
  · have h10 : n < 10 := by omega
    simp [h, h10]
  · have h10 : ¬ n < 10 := fun hlt => h (Nat.div_eq_of_lt hlt)
    simp only [h, if_false, h10]
    rw [toDigitsCore_append]
    show _ ++ _ = Nat.toDigitsCore 10 (n / 10 + 1) (n / 10) [] ++ _
    rw [toDigitsCore_fuel 10 (by norm_num) (n / 10) f (n / 10 + 1) (by omega) (by omega)]

lemma toDigits_decomp (n : Nat) :
    Nat.toDigits 10 n =
      (if n < 10 then [] else Nat.toDigits 10 (n / 10)) ++ [Nat.digitChar (n % 10)] :=
  toDigitsCore_decomp n (n + 1) (by omega)

lemma toDigits_ne_nil (n : Nat) : Nat.toDigits 10 n ≠ [] := by
  rw [toDigits_decomp n]; simp

lemma digitChar_inj : ∀ i < 10, ∀ j < 10, Nat.digitChar i = Nat.digitChar j → i = j := by
  decide

lemma toDigits_injective : ∀ (a b : Nat), Nat.toDigits 10 a = Nat.toDigits 10 b → a = b := by
  intro a
  induction a using Nat.strong_induction_on with
  | _ a ih =>
    intro b h
    rw [toDigits_decomp a, toDigits_decomp b] at h
    obtain ⟨h1, h2⟩ := List.append_inj' h rfl
    have hmod : a % 10 = b % 10 := by
      simp only [List.cons.injEq, and_true] at h2
      exact digitChar_inj _ (Nat.mod_lt a (by omega)) _ (Nat.mod_lt b (by omega)) h2
    by_cases ha : a < 10 <;> by_cases hb : b < 10
    · omega
    · rw [if_pos ha, if_neg hb] at h1
      exact absurd h1.symm (toDigits_ne_nil _)
    · rw [if_neg ha, if_pos hb] at h1
      exact absurd h1 (toDigits_ne_nil _)
    · rw [if_neg ha, if_neg hb] at h1
      have := ih (a / 10) (Nat.div_lt_self (by omega) (by omega)) (b / 10) h1
      omega

lemma repr_injective : ∀ a b : Nat, Nat.repr a = Nat.repr b → a = b := by
  intro a b h
  unfold Nat.repr at h
  exact toDigits_injective a b (List.asString_inj.mp h)

lemma threadToken_inj {t1 t2 : Nat} (h : threadToken t1 = threadToken t2) : t1 = t2 := by
  unfold threadToken at h
  have hd := congrArg String.data h
  simp only [String.data_append] at hd
  exact repr_injective t1 t2 (String.ext (List.append_cancel_left hd))

lemma processInput_success (loads : String → Option Json)
    (user_input timestamp : String) (body : List (String × Json)) (s : AppState)
    (hin : user_input ≠ "") (hb : body ≠ []) :
    processInput loads true user_input timestamp (HttpOutcome.response 200 body) s =
      { s with
        messages := s.messages ++
          [Msg.user user_input timestamp, assistantMsg loads body timestamp],
        task_plans := s.task_plans ++ (decodedPlan loads body).toList,
        execution_history := s.execution_history ++
          [histEntryOf user_input s.thread_id timestamp body] } := by
  unfold processInput
  rw [if_pos ⟨rfl, hin⟩]
  have hco : call_orchestrator (HttpOutcome.response 200 body) = some body := rfl
  rw [hco]
  match body, hb with
  | f :: rest, _ => simp [Json.truthy]

lemma processInput_failure (loads : String → Option Json)
    (user_input timestamp : String) (outcome : HttpOutcome) (s : AppState)
    (hin : user_input ≠ "") (hnone : call_orchestrator outcome = none) :
    processInput loads true user_input timestamp outcome s =
      { s with messages := s.messages ++ [Msg.user user_input timestamp] } := by
  unfold processInput
  rw [if_pos ⟨rfl, hin⟩, hnone]

/-! ## Claims -/

/-- C2 counterexample: the spec says any success-class (2xx) status
succeeds; the code only accepts exactly 200, so a call answered with
status 201 (or 204) returns `None` after reporting an API error. -/
theorem c2_counterexample :
    call_orchestrator (HttpOutcome.response 201 [("status", Json.str "complete")]) = none ∧
    call_orchestrator (HttpOutcome.response 204 []) = none := by
  exact ⟨rfl, rfl⟩

/-- C2 (amended): `call_orchestrator` returns the decoded body exactly
when the HTTP status code is 200; every other status code — including
the success-class 201 and 204 — makes it fail (report an API error and
return `None`). -/
theorem c2_api_error_iff_not_200 (statusCode : Nat) (body : List (String × Json)) :
    (call_orchestrator (HttpOutcome.response statusCode body) = some body ↔
      statusCode = 200) ∧
    (call_orchestrator (HttpOutcome.response statusCode body) = none ↔
      statusCode ≠ 200) := by
  unfold call_orchestrator
  by_cases h : statusCode = 200 <;> simp [h]

/-- C3: on a network-level failure (unreachable endpoint) or a non-200
HTTP status, `call_orchestrator` returns `None`, and the submit handler
appends exactly the one user message: no assistant message, and the
task-plan and execution histories are untouched — a dangling user turn. -/
theorem c3_dangling_user_turn (loads : String → Option Json)
    (user_input timestamp : String) (outcome : HttpOutcome) (s : AppState)
    (hin : user_input ≠ "")
    (hfail : outcome = HttpOutcome.connectionError ∨
      ∃ c body, c ≠ 200 ∧ outcome = HttpOutcome.response c body) :
    call_orchestrator outcome = none ∧
    processInput loads true user_input timestamp outcome s =
      { s with messages := s.messages ++ [Msg.user user_input timestamp] } := by
  have hnone : call_orchestrator outcome = none := by
    rcases hfail with rfl | ⟨c, body, hc, rfl⟩
    · rfl
    · unfold call_orchestrator
      simp [hc]
  exact ⟨hnone, processInput_failure loads user_input timestamp outcome s hin hnone⟩

/-- C3 witness: submitting `"q"` against an unreachable endpoint leaves
exactly the dangling user turn. -/
theorem c3_dangling_user_turn_witness :
    call_orchestrator HttpOutcome.connectionError = none ∧
    processInput (fun _ => none) true "q" "12:00:00" HttpOutcome.connectionError
        (initState 0) =
      { initState 0 with messages := [Msg.user "q" "12:00:00"] } := by
  exact c3_dangling_user_turn (fun _ => none) "q" "12:00:00"
    HttpOutcome.connectionError (initState 0) (by decide) (Or.inl rfl)

/-- C4 counterexample: the thread id is `thread_<int(time.time())>`, so
two resets within the same wall-clock second (same epoch second, here
100) produce the SAME thread id, contradicting the claim that the new
threadId always differs from the immediately preceding one. -/
theorem c4_counterexample :
    (newThread 100 (newThread 100 (initState 0))).thread_id =
      (newThread 100 (initState 0)).thread_id := rfl

/-- C4 (amended): every reset leaves the turn list, the task-plan
history and the execution history empty and installs the time token
`thread_<t>`; the thread id of a second reset equals the one it
replaces exactly when both resets fall in the same epoch second — it
differs whenever the epoch seconds differ. -/
theorem c4_reset_state (t1 t2 : Nat) (s : AppState) :
    (newThread t1 s).messages = [] ∧
    (newThread t1 s).task_plans = [] ∧
    (newThread t1 s).execution_history = [] ∧
    (newThread t1 s).thread_id = threadToken t1 ∧
    ((newThread t2 (newThread t1 s)).thread_id = (newThread t1 s).thread_id ↔
      t2 = t1) := by
  refine ⟨rfl, rfl, rfl, rfl, ?_, ?_⟩
  · intro h
    exact threadToken_inj h
  · rintro rfl
    rfl

/-- C10: Clear History empties only the turn list — the task-plan
history, the execution history and the thread id are unchanged — while
New Thread (reset) clears all three collections and installs a fresh
time-based thread id. -/
theorem c10_clear_history_frame (s : AppState) (t : Nat) :
    (clearHistory s).messages = [] ∧
    (clearHistory s).task_plans = s.task_plans ∧
    (clearHistory s).execution_history = s.execution_history ∧
    (clearHistory s).thread_id = s.thread_id ∧
    (newThread t s).messages = [] ∧
    (newThread t s).task_plans = [] ∧
    (newThread t s).execution_history = [] ∧
    (newThread t s).thread_id = threadToken t := by
  exact ⟨rfl, rfl, rfl, rfl, rfl, rfl, rfl, rfl⟩

/-- C5: task-plan decoding never escapes the handler (the embedding of
the `try/except` is the total `decodedPlan`); on a submission whose call
succeeded with a truthy body, the task-plan history grows by exactly the
decoded plan when one was obtained and by nothing otherwise, the
assistant turn's `task_plan` field is the decoded plan or `None`; in
particular, when the `task_plan` field is a string on which the decoder
fails, the field is `None` and the history is untouched. -/
theorem c5_task_plan_decode (loads : String → Option Json)
    (user_input timestamp : String) (body : List (String × Json)) (s : AppState)
    (hin : user_input ≠ "") (hb : body ≠ []) :
    (processInput loads true user_input timestamp
        (HttpOutcome.response 200 body) s).task_plans =
      s.task_plans ++ (decodedPlan loads body).toList ∧
    (assistantMsg loads body timestamp).taskPlanOf =
      (decodedPlan loads body).getD Json.null ∧
    (∀ tp : String, dictGet body "task_plan" = Json.str tp → loads tp = none →
      (processInput loads true user_input timestamp
          (HttpOutcome.response 200 body) s).task_plans = s.task_plans ∧
      (assistantMsg loads body timestamp).taskPlanOf = Json.null) := by
  have hrec := processInput_success loads user_input timestamp body s hin hb
  refine ⟨by rw [hrec], rfl, ?_⟩
  intro tp htp hl
  have hdec : decodedPlan loads body = none := by
    unfold decodedPlan
    rw [htp]
    by_cases ht : (Json.str tp).truthy
    · simp only [ht, if_true]
      exact hl
    · simp [ht]
  constructor
  · rw [hrec]
    simp [hdec]
  · show (decodedPlan loads body).getD Json.null = Json.null
    rw [hdec]
    rfl

/-- C5 witness: a response whose `task_plan` is the malformed string
`"{not json"` (the decoder fails on it) yields an assistant turn with a
`None` task plan and an unchanged task-plan history. -/
theorem c5_task_plan_decode_witness :
    (processInput (fun _ => none) true "q" "12:00:00"
        (HttpOutcome.response 200 [("task_plan", Json.str "\x7bnot json")])
        (initState 0)).task_plans = (initState 0).task_plans ∧
    (assistantMsg (fun _ => none) [("task_plan", Json.str "\x7bnot json")]
        "12:00:00").taskPlanOf = Json.null := by
  exact (c5_task_plan_decode (fun _ => none) "q" "12:00:00"
    [("task_plan", Json.str "\x7bnot json")] (initState 0)
    (by decide) (List.cons_ne_nil _ _)).2.2 "\x7bnot json" rfl rfl

/-- C6: a successful call whose body lacks a `status` field yields an
assistant turn whose status is the default `"pending"`, and the display
renders that status as Processing, not Completed. -/
theorem c6_missing_status_pending (loads : String → Option Json)
    (user_input timestamp : String) (body : List (String × Json)) (s : AppState)
    (hin : user_input ≠ "") (hb : body ≠ [])
    (hmiss : List.lookup "status" body = none) :
    processInput loads true user_input timestamp (HttpOutcome.response 200 body) s =
      { s with
        messages := s.messages ++
          [Msg.user user_input timestamp, assistantMsg loads body timestamp],
        task_plans := s.task_plans ++ (decodedPlan loads body).toList,
        execution_history := s.execution_history ++
          [histEntryOf user_input s.thread_id timestamp body] } ∧
    (assistantMsg loads body timestamp).statusOf = Json.str "pending" ∧
    renderStatus (assistantMsg loads body timestamp).statusOf =
      "Status: Processing" := by
  have hst : (assistantMsg loads body timestamp).statusOf = Json.str "pending" := by
    show dictGetD body "status" (Json.str "pending") = Json.str "pending"
    unfold dictGetD
    rw [hmiss]
    rfl
  refine ⟨processInput_success loads user_input timestamp body s hin hb, hst, ?_⟩
  rw [hst]
  rfl

/-- C6 witness: a body carrying only an execution order (no `status`
key) produces a `"pending"` assistant turn rendered as Processing. -/
theorem c6_missing_status_pending_witness :
    (assistantMsg (fun _ => none) [("execution_order", Json.arr [Json.str "A"])]
        "12:00:00").statusOf = Json.str "pending" ∧
    renderStatus ((assistantMsg (fun _ => none)
        [("execution_order", Json.arr [Json.str "A"])] "12:00:00").statusOf) =
      "Status: Processing" := by
  exact (c6_missing_status_pending (fun _ => none) "q" "12:00:00"
    [("execution_order", Json.arr [Json.str "A"])] (initState 0)
    (by decide) (List.cons_ne_nil _ _) rfl).2

/-- C7: a response carrying `execution_order = ["A","B","C"]` stores
exactly that list on the assistant turn, the Order tab renders it in
the same order with indices 1, 2, 3 (no reordering, no deduplication),
and the appended execution-history entry's `agents` field is the same
list. -/
theorem c7_execution_order (loads : String → Option Json)
    (user_input timestamp : String) (body : List (String × Json)) (s : AppState)
    (hin : user_input ≠ "")
    (heo : List.lookup "execution_order" body =
      some (Json.arr [Json.str "A", Json.str "B", Json.str "C"])) :
    (assistantMsg loads body timestamp).executionOrderOf =
      Json.arr [Json.str "A", Json.str "B", Json.str "C"] ∧
    renderedOrder ((assistantMsg loads body timestamp).executionOrderOf) =
      [(1, Json.str "A"), (2, Json.str "B"), (3, Json.str "C")] ∧
    (histEntryOf user_input s.thread_id timestamp body).agents =
      Json.arr [Json.str "A", Json.str "B", Json.str "C"] ∧
    (processInput loads true user_input timestamp
        (HttpOutcome.response 200 body) s).execution_history =
      s.execution_history ++ [histEntryOf user_input s.thread_id timestamp body] := by
  have hb : body ≠ [] := by
    intro h
    rw [h] at heo
    exact absurd heo (by simp [List.lookup])
  have heo1 : (assistantMsg loads body timestamp).executionOrderOf =
      Json.arr [Json.str "A", Json.str "B", Json.str "C"] := by
    show dictGet body "execution_order" = _
    unfold dictGet
    rw [heo]
    rfl
  refine ⟨heo1, ?_, ?_, ?_⟩
  · rw [heo1]
    rfl
  · show dictGetD body "execution_order" (Json.arr []) = _
    unfold dictGetD
    rw [heo]
    rfl
  · rw [processInput_success loads user_input timestamp body s hin hb]

/-- C7 witness: the three-agent execution order is preserved end to end
on a concrete submission. -/
theorem c7_execution_order_witness :
    (assistantMsg (fun _ => none)
        [("execution_order", Json.arr [Json.str "A", Json.str "B", Json.str "C"])]
        "12:00:00").executionOrderOf =
      Json.arr [Json.str "A", Json.str "B", Json.str "C"] ∧
    renderedOrder ((assistantMsg (fun _ => none)
        [("execution_order", Json.arr [Json.str "A", Json.str "B", Json.str "C"])]
        "12:00:00").executionOrderOf) =
      [(1, Json.str "A"), (2, Json.str "B"), (3, Json.str "C")] ∧
    (histEntryOf "q" (initState 0).thread_id "12:00:00"
        [("execution_order", Json.arr [Json.str "A", Json.str "B", Json.str "C"])]).agents =
      Json.arr [Json.str "A", Json.str "B", Json.str "C"] ∧
    (processInput (fun _ => none) true "q" "12:00:00"
        (HttpOutcome.response 200
          [("execution_order", Json.arr [Json.str "A", Json.str "B", Json.str "C"])])
        (initState 0)).execution_history =
      (initState 0).execution_history ++
        [histEntryOf "q" (initState 0).thread_id "12:00:00"
          [("execution_order", Json.arr [Json.str "A", Json.str "B", Json.str "C"])]] := by
  exact c7_execution_order (fun _ => none) "q" "12:00:00"
    [("execution_order", Json.arr [Json.str "A", Json.str "B", Json.str "C"])]
    (initState 0) (by decide) rfl

/-- C9: the assistant turn's content is
`result.get("error") or "Task completed successfully"`: the
server-reported error text whenever that field holds a non-empty
string, and the fixed success string when the field is absent or the
empty string — independently of the response's `status` field (the body
is arbitrary here, so this covers absent, pending and error statuses). -/
theorem c9_content_error_or_fixed (loads : String → Option Json)
    (body : List (String × Json)) (timestamp : String) :
    (∀ e : String, List.lookup "error" body = some (Json.str e) → e ≠ "" →
      (assistantMsg loads body timestamp).contentOf = Json.str e) ∧
    (List.lookup "error" body = none ∨
        List.lookup "error" body = some (Json.str "") →
      (assistantMsg loads body timestamp).contentOf =
        Json.str "Task completed successfully") := by
  constructor
  · intro e he hne
    show (if (dictGet body "error").truthy then dictGet body "error"
      else Json.str "Task completed successfully") = Json.str e
    unfold dictGet
    rw [he]
    simp [Json.truthy, hne]
  · intro habs
    show (if (dictGet body "error").truthy then dictGet body "error"
      else Json.str "Task completed successfully") = _
    unfold dictGet
    rcases habs with h | h <;> rw [h] <;> simp [Json.truthy]

/-- C9 witness: a body whose `error` field is `"boom"` yields `"boom"`
as content; one without an error field yields the fixed success
string. -/
theorem c9_content_error_or_fixed_witness :
    (assistantMsg (fun _ => none) [("error", Json.str "boom")]
        "12:00:00").contentOf = Json.str "boom" ∧
    (assistantMsg (fun _ => none) [("status", Json.str "error")]
        "12:00:00").contentOf = Json.str "Task completed successfully" := by
  exact ⟨(c9_content_error_or_fixed (fun _ => none) [("error", Json.str "boom")]
      "12:00:00").1 "boom" rfl (by decide),
    (c9_content_error_or_fixed (fun _ => none) [("status", Json.str "error")]
      "12:00:00").2 (Or.inl rfl)⟩

/-- C8: the displayed confidence percentage is `int(confidence * 100)`,
which on `[0,1]` is truncation (the floor), not rounding: `0.73`
renders as `73%`, `0.999` renders as `99%` where rounding would give
`100`. -/
theorem c8_confidence_truncates (x : ℚ) (h0 : 0 ≤ x) (_hle : x ≤ 1) :
    confidencePct x = ⌊x * 100⌋ ∧
    confidenceMetric (73 / 100) = "73%" ∧
    confidenceMetric (999 / 1000) = "99%" ∧
    confidencePct (999 / 1000) ≠ round ((999 / 1000 : ℚ) * 100) := by
  have hgen : ∀ y : ℚ, 0 ≤ y → confidencePct y = ⌊y * 100⌋ := by
    intro y hy
    unfold confidencePct pyInt
    rw [if_neg (not_lt.mpr (mul_nonneg hy (by norm_num)))]
  have h73 : confidencePct (73 / 100 : ℚ) = 73 := by
    rw [hgen _ (by norm_num),
      show (73 / 100 : ℚ) * 100 = ((73 : ℤ) : ℚ) by norm_num]
    exact Int.floor_intCast 73
  have h99 : confidencePct (999 / 1000 : ℚ) = 99 := by
    rw [hgen _ (by norm_num), Int.floor_eq_iff]
    norm_num
  have hround : round ((999 / 1000 : ℚ) * 100) = 100 := by
    rw [round_eq, Int.floor_eq_iff]
    norm_num
  refine ⟨hgen x h0, ?_, ?_, ?_⟩
  · unfold confidenceMetric
    rw [h73]
    rfl
  · unfold confidenceMetric
    rw [h99]
    rfl
  · rw [h99, hround]
    decide

/-- C8 witness: the truncation law applied at the concrete confidence
1/2, together with the two boundary renderings. -/
theorem c8_confidence_truncates_witness :
    confidencePct (1 / 2) = ⌊(1 / 2 : ℚ) * 100⌋ ∧
    confidenceMetric (73 / 100) = "73%" ∧
    confidenceMetric (999 / 1000) = "99%" ∧
    confidencePct (999 / 1000) ≠ round ((999 / 1000 : ℚ) * 100) :=
  c8_confidence_truncates (1 / 2) (by norm_num) (by norm_num)

/-- C1 counterexample: a submission answered with HTTP 500 has received
a response (an API error), yet the transcript gains only the user turn
— 1 turn, not the 2 the claim predicts for a submission that received
a response. -/
theorem c1_counterexample :
    (processInput (fun _ => none) true "q" "12:00:00"
        (HttpOutcome.response 500 [("detail", Json.str "oops")])
        (initState 0)).messages.length = 1 ∧
    ¬ (processInput (fun _ => none) true "q" "12:00:00"
        (HttpOutcome.response 500 [("detail", Json.str "oops")])
        (initState 0)).messages.length = 2 := by
  have h : (processInput (fun _ => none) true "q" "12:00:00"
      (HttpOutcome.response 500 [("detail", Json.str "oops")])
      (initState 0)).messages.length = 1 := by
    rw [processInput_failure (fun _ => none) "q" "12:00:00"
      (HttpOutcome.response 500 [("detail", Json.str "oops")]) (initState 0)
      (by decide) rfl]
    rfl
  refine ⟨h, ?_⟩
  rw [h]
  decide

/-- C1 (amended): every submission with non-empty input appends exactly
one user turn, and appends exactly one assistant turn if and only if
the orchestrator call returned a truthy result — HTTP 200 with a truthy
decoded body (`truthyResult`); hence over any submission sequence the
transcript length grows by 2 per truthy-result submission and by 1 per
other submission (connection failure, other exception, non-200 status,
or a 200 response with an empty/falsy decoded body). -/
theorem c1_turn_count (loads : String → Option Json) (subs : List Submission)
    (s : AppState) (hin : ∀ sub ∈ subs, sub.input ≠ "") :
    (runSubmissions loads subs s).messages.length =
      s.messages.length +
        (subs.map (fun sub => if truthyResult sub.outcome then 2 else 1)).sum := by
  revert hin
  induction subs generalizing s with
  | nil =>
    intro _
    simp [runSubmissions]
  | cons sub rest ih =>
    intro hin
    have hin1 : sub.input ≠ "" := hin sub (List.mem_cons_self sub rest)
    have hrest : ∀ x ∈ rest, x.input ≠ "" :=
      fun x hx => hin x (List.mem_cons_of_mem sub hx)
    have hstep :
        (processInput loads true sub.input sub.timestamp sub.outcome s).messages.length =
          s.messages.length + (if truthyResult sub.outcome then 2 else 1) := by
      unfold processInput truthyResult
      rw [if_pos ⟨rfl, hin1⟩]
      cases hco : call_orchestrator sub.outcome with
      | none => simp
      | some body =>
        by_cases ht : (Json.obj body).truthy
        · simp [ht]
        · simp [ht]
    have hfold : runSubmissions loads (sub :: rest) s =
        runSubmissions loads rest
          (processInput loads true sub.input sub.timestamp sub.outcome s) := rfl
    rw [hfold, ih _ hrest, hstep, List.map_cons, List.sum_cons]
    by_cases hq : truthyResult sub.outcome <;> simp [hq] <;> omega

/-- C1 witness: three submissions — a truthy 200 response, a 500
response, and a connection failure — grow an empty transcript to
2 + 1 + 1 = 4 turns. -/
theorem c1_turn_count_witness :
    (runSubmissions (fun _ => none)
        [⟨"a", "t1", HttpOutcome.response 200 [("status", Json.str "complete")]⟩,
         ⟨"b", "t2", HttpOutcome.response 500 []⟩,
         ⟨"c", "t3", HttpOutcome.connectionError⟩]
        (initState 0)).messages.length = 4 := by
  have h := c1_turn_count (fun _ => none)
    [⟨"a", "t1", HttpOutcome.response 200 [("status", Json.str "complete")]⟩,
     ⟨"b", "t2", HttpOutcome.response 500 []⟩,
     ⟨"c", "t3", HttpOutcome.connectionError⟩]
    (initState 0) (by decide)
  exact h.trans rfl

end OrchUI
